import Mathlib

/-!
# twiliogo IP Messaging messages: sending, fetching and paging

A shallow embedding of `ip_message.go` and the properties of its operations.

The HTTP client and `encoding/json` are collaborators of the file, not part of
it.  They are represented as follows.

* Every `client.get` / `client.post` is recorded, in order, in a log of calls
  that is threaded through each operation.  A client answers a call from the
  calls made before it, so a server whose answers change over time is covered.
* A call returns `([]byte, error)`, and the file reads the bytes only when the
  error is nil: an answer is either the error or the bytes.
* `json.Unmarshal(data, v)` receives a pointer to a record the caller has
  already allocated and updates it in place: it is a function from the bytes
  and the record as it stands to the record afterwards and an optional error.
  The two instances the file uses are the fields of `Json`.
* A Go result pair `(*T, error)` is a pair of options: `none` is `nil`.
* A slice is a list; a nil slice and an empty slice are both `[]`.
-/

namespace Twiliogo

/-- A `[]byte` response body, written as the text of its bytes. -/
abbrev Bytes := String

/-- Modelled from the spec: the package's `Error` type is declared outside
`ip_message.go`.  A Go `error` value is either `Error s`, what the file writes
`Error{s}`, or `foreign`, an error produced by the transport or by
`encoding/json` and passed on as it is. -/
inductive GoError where
  | Error (text : String)
  | foreign (text : String)
  deriving DecidableEq, Repr

/-- The type `url.Values`, a map from a key to its list of values, as an association list
with at most one entry per key. -/
abbrev Values := List (String × List String)

/-- The map index expression `v[key]`. -/
def Values.lookup (v : Values) (key : String) : Option (List String) :=
  match v.find? (fun e => e.1 == key) with
  | some e => some e.2
  | none => none

/-- The method `url.Values.Set`: `v[key] = []string{value}`, replacing what was there. -/
def Values.Set (v : Values) (key value : String) : Values :=
  (key, [value]) :: v.filter (fun e => !(e.1 == key))

/-- One request handed to the client: `get(query, uri)` (the query may be the
nil map) or `post(form, uri)`. -/
inductive Call where
  | get (query : Option Values) (uri : String)
  | post (form : Values) (uri : String)
  deriving DecidableEq, Repr

/-- Modelled from the spec: the `Client` interface and `TwilioIPMessagingClient`
are declared outside `ip_message.go`; a client offers `get(query, path)` and
`post(form, path)`, each answering bytes or an error.  A live client is where
it lives and what it answers to a call given the calls already made. -/
structure Client where
  addr : Nat
  respond : List Call → Call → Except GoError Bytes

/-- The struct `IPMessage`. -/
structure IPMessage where
  Sid : String
  AccountSid : String
  ServiceSid : String
  To : String
  Attributes : String
  DateCreated : String
  DateUpdated : String
  WasEdited : Bool
  From : String
  Body : String
  URL : String
  deriving DecidableEq, Repr

/-- Modelled from the spec: the declaration of `Meta` is not in `ip_message.go`;
these are the three links the file reads, each a URL or the empty string. -/
structure Meta where
  NextPageUrl : String
  PreviousPageUrl : String
  FirstPageUrl : String
  deriving DecidableEq, Repr

/-- The struct `IPMessageList`.  `Client` is an interface value, hence possibly nil. -/
structure IPMessageList where
  Client : Option Client
  Messages : List IPMessage
  Meta : Meta

/-- The two uses of `json.Unmarshal` in the file. -/
structure Json where
  unmarshalMessage : Bytes → IPMessage → IPMessage × Option GoError
  unmarshalList : Bytes → IPMessageList → IPMessageList × Option GoError

/-- The value of `new(IPMessage)`. -/
def newIPMessage : IPMessage :=
  { Sid := "", AccountSid := "", ServiceSid := "", To := "", Attributes := "",
    DateCreated := "", DateUpdated := "", WasEdited := false, From := "", Body := "",
    URL := "" }

/-- The value of `new(IPMessageList)` once `messageList.Client = client` has run. -/
def newIPMessageList (client : Client) : IPMessageList :=
  { Client := some client, Messages := [],
    Meta := { NextPageUrl := "", PreviousPageUrl := "", FirstPageUrl := "" } }

/-- How a method of a page ends: it returns a value, or it stops at a nil
dereference (a method call on a nil `Client`, a field read through a nil page),
which in Go is a run-time panic.  Either way with the log of calls so far. -/
inductive Run (α : Type) where
  | done (value : α) (log : List Call)
  | nilDeref (log : List Call)

/-- The function `SendIPMessageToChannel`. -/
def SendIPMessageToChannel (J : Json) (client : Client)
    (serviceSid channelSid sender body attributes : String) (log : List Call) :
    (Option IPMessage × Option GoError) × List Call :=
  let params : Values := []
  let params := params.Set "Body" body
  let params := if sender ≠ "" then params.Set "From" sender else params
  let params := params.Set "Attributes" attributes
  let call := Call.post params ("/Services/" ++ serviceSid ++ "/Channels/" ++ channelSid ++ "/Messages")
  match client.respond log call with
  | .error err => ((none, some err), log ++ [call])
  | .ok res =>
    let r := J.unmarshalMessage res newIPMessage
    ((some r.1, r.2), log ++ [call])

/-- The function `UpdateIPMessage`. -/
def UpdateIPMessage (J : Json) (client : Client)
    (serviceSid channelSid messageSid body attributes : String) (log : List Call) :
    (Option IPMessage × Option GoError) × List Call :=
  let params : Values := []
  let params := params.Set "Body" body
  let params := params.Set "Attributes" attributes
  let call := Call.post params
    ("/Services/" ++ serviceSid ++ "/Channels/" ++ channelSid ++ "/Messages/" ++ messageSid)
  match client.respond log call with
  | .error err => ((none, some err), log ++ [call])
  | .ok res =>
    let r := J.unmarshalMessage res newIPMessage
    ((some r.1, r.2), log ++ [call])

/-- The function `GetIPChannelMessage`; its query is the empty, non-nil `url.Values{}`. -/
def GetIPChannelMessage (J : Json) (client : Client)
    (serviceSid channelSid sid : String) (log : List Call) :
    (Option IPMessage × Option GoError) × List Call :=
  let call := Call.get (some [])
    ("/Services/" ++ serviceSid ++ "/Channels/" ++ channelSid ++ "/Messages/" ++ sid)
  match client.respond log call with
  | .error err => ((none, some err), log ++ [call])
  | .ok res =>
    let r := J.unmarshalMessage res newIPMessage
    ((some r.1, r.2), log ++ [call])

/-- The function `ListIPMessages`; its query is the nil map. -/
def ListIPMessages (J : Json) (client : Client)
    (serviceSid channelSid : String) (log : List Call) :
    (Option IPMessageList × Option GoError) × List Call :=
  let call := Call.get none ("/Services/" ++ serviceSid ++ "/Channels/" ++ channelSid ++ "/Messages")
  match client.respond log call with
  | .error err => ((none, some err), log ++ [call])
  | .ok body =>
    let r := J.unmarshalList body (newIPMessageList client)
    ((some r.1, r.2), log ++ [call])

/-- The method `GetMessages`. -/
def GetMessages (c : IPMessageList) : List IPMessage :=
  c.Messages

/-- The method `HasNextPage`. -/
def HasNextPage (c : IPMessageList) : Bool :=
  c.Meta.NextPageUrl != ""

/-- The method `HasPreviousPage`. -/
def HasPreviousPage (c : IPMessageList) : Bool :=
  c.Meta.PreviousPageUrl != ""

/-- The method `getPage`. -/
def getPage (J : Json) (c : IPMessageList) (uri : String) (log : List Call) :
    Run (Option IPMessageList × Option GoError) :=
  match c.Client with
  | none => .nilDeref log
  | some client =>
    let call := Call.get none uri
    match client.respond log call with
    | .error err => .done (none, some err) (log ++ [call])
    | .ok body =>
      let r := J.unmarshalList body (newIPMessageList client)
      .done (some r.1, r.2) (log ++ [call])

/-- The method `NextPage`. -/
def NextPage (J : Json) (c : IPMessageList) (log : List Call) :
    Run (Option IPMessageList × Option GoError) :=
  if !HasNextPage c then
    .done (none, some (GoError.Error "No next page")) log
  else
    getPage J c c.Meta.NextPageUrl log

/-- The method `PreviousPage`.  As in the source, the page it asks for is the
one at `c.Meta.NextPageUrl`. -/
def PreviousPage (J : Json) (c : IPMessageList) (log : List Call) :
    Run (Option IPMessageList × Option GoError) :=
  if !HasPreviousPage c then
    .done (none, some (GoError.Error "No previous page")) log
  else
    getPage J c c.Meta.NextPageUrl log

/-- The method `FirstPage`. -/
def FirstPage (J : Json) (c : IPMessageList) (log : List Call) :
    Run (Option IPMessageList × Option GoError) :=
  getPage J c c.Meta.FirstPageUrl log

/-- The loop of `GetAllMessages`, with `t` the current page and `messages` the
slice built so far.  The Go loop has no bound of its own; `fuel` is the number
of further pages the run may fetch, and `none` means that it was not enough. -/
def GetAllMessagesLoop (J : Json) :
    Nat → IPMessageList → List IPMessage → List Call →
      Option (Run (List IPMessage × Option GoError))
  | 0, t, messages, log =>
    if HasNextPage t then none else some (.done (messages, none) log)
  | fuel + 1, t, messages, log =>
    if HasNextPage t then
      match NextPage J t log with
      | .nilDeref log1 => some (.nilDeref log1)
      | .done (_, some err) log1 => some (.done ([], some err) log1)
      | .done (none, none) log1 => some (.nilDeref log1)
      | .done (some t1, none) log1 => GetAllMessagesLoop J fuel t1 (messages ++ t1.Messages) log1
    else some (.done (messages, none) log)

/-- The method `GetAllMessages`. -/
def GetAllMessages (J : Json) (fuel : Nat) (c : IPMessageList) (log : List Call) :
    Option (Run (List IPMessage × Option GoError)) :=
  GetAllMessagesLoop J fuel c c.Messages log

/-! ## Worked example: a listing of three pages -/

/-- A message with the given sid and body, for the examples. -/
def exampleMessage (sid body : String) : IPMessage :=
  { newIPMessage with Sid := sid, Body := body }

/-- A stand-in decoder for the examples.  Each body is a short label for the
record it decodes to; `"garbage"` is a body that does not decode.  The client
field of the record it is given is left as it is. -/
def exampleJson : Json where
  unmarshalMessage := fun data v =>
    if data = "m1" then ({ v with Sid := "IM1", Body := "hello" }, none)
    else (v, some (GoError.foreign "invalid character"))
  unmarshalList := fun data v =>
    if data = "page1" then
      ({ v with Messages := [exampleMessage "IM1" "a", exampleMessage "IM2" "b"],
                Meta := { NextPageUrl := "/p2", PreviousPageUrl := "", FirstPageUrl := "/p1" } },
        none)
    else if data = "page2" then
      ({ v with Messages := [exampleMessage "IM3" "c", exampleMessage "IM4" "d"],
                Meta := { NextPageUrl := "/p3", PreviousPageUrl := "/p1", FirstPageUrl := "/p1" } },
        none)
    else if data = "page3" then
      ({ v with Messages := [exampleMessage "IM5" "e"],
                Meta := { NextPageUrl := "", PreviousPageUrl := "/p2", FirstPageUrl := "/p1" } },
        none)
    else (v, some (GoError.foreign "invalid character"))

/-- A server holding three pages at `/p1`, `/p2` and `/p3`, a body that does
not decode at `/bad`, and nothing elsewhere. -/
def exampleClient : Client where
  addr := 1
  respond := fun _ call =>
    match call with
    | .get _ uri =>
      if uri = "/p1" then .ok "page1"
      else if uri = "/p2" then .ok "page2"
      else if uri = "/p3" then .ok "page3"
      else if uri = "/bad" then .ok "garbage"
      else .error (GoError.foreign "404")
    | .post _ _ => .error (GoError.foreign "401")

/-- The example's first page, of two messages. -/
def examplePage1 : IPMessageList := (exampleJson.unmarshalList "page1" (newIPMessageList exampleClient)).1

/-- The example's second page, of two messages. -/
def examplePage2 : IPMessageList := (exampleJson.unmarshalList "page2" (newIPMessageList exampleClient)).1

/-- The example's third and last page, of one message. -/
def examplePage3 : IPMessageList := (exampleJson.unmarshalList "page3" (newIPMessageList exampleClient)).1

/-! ## A response that names the client field -/

/-- What `json.Unmarshal` makes of the body `{"Client":null}` when it fills an
`IPMessageList`.  The field `Client` is exported and carries no json tag, so
the object member `Client` is addressed to it, and storing the JSON value null
into an interface sets it to nil.  The body has no other member: the remaining
fields stay as they were and the error is nil.  Any other body is reported
here as a syntax error, which leaves the record untouched. -/
def nullClientJson : Json where
  unmarshalMessage := fun _ v => (v, some (GoError.foreign "invalid character"))
  unmarshalList := fun data v =>
    if data = "\x7b\"Client\":null\x7d" then ({ v with Client := none }, none)
    else (v, some (GoError.foreign "invalid character"))

/-- A server that answers every get with the body `{"Client":null}`. -/
def nullClientServer : Client where
  addr := 2
  respond := fun _ call =>
    match call with
    | .get _ _ => .ok "\x7b\"Client\":null\x7d"
    | .post _ _ => .error (GoError.foreign "405")

/-- A page obtained from `nullClientServer`, with all three links set. -/
def nullClientStart : IPMessageList :=
  { Client := some nullClientServer, Messages := [exampleMessage "IM1" "a"],
    Meta := { NextPageUrl := "/p2", PreviousPageUrl := "/p0", FirstPageUrl := "/p0" } }

/-- The list `new(IPMessageList)` with the client field nil. -/
def clientlessPage : IPMessageList :=
  { Client := none, Messages := [],
    Meta := { NextPageUrl := "", PreviousPageUrl := "", FirstPageUrl := "" } }

/-- A page with a next link and a nil client, as `IPMessageList{}` with its
links filled in has. -/
def clientlessPageWithNext : IPMessageList :=
  { Client := none, Messages := [],
    Meta := { NextPageUrl := "/p2", PreviousPageUrl := "", FirstPageUrl := "/p1" } }

/-! ## Chains of pages -/

/-- The page `p` is what `t`, a page with a next link and a client, gets when
the log is `log`: the client answers the get of the next link with a body, and
the decoder turns that body into `p` without an error. -/
def Fetched (J : Json) (t : IPMessageList) (log : List Call) (p : IPMessageList) : Prop :=
  t.Meta.NextPageUrl ≠ "" ∧
    ∃ client body, t.Client = some client ∧
      client.respond log (Call.get none t.Meta.NextPageUrl) = .ok body ∧
      J.unmarshalList body (newIPMessageList client) = (p, none)

/-- The fetch of the page after `t` fails with `e` when the log is `log`: `t`
has a next link and a client, and either the client answers the get of that
link with `e` or it answers with a body on which the decoder reports `e`. -/
def FetchFails (J : Json) (t : IPMessageList) (log : List Call) (e : GoError) : Prop :=
  t.Meta.NextPageUrl ≠ "" ∧
    ∃ client, t.Client = some client ∧
      (client.respond log (Call.get none t.Meta.NextPageUrl) = .error e
        ∨ ∃ body, client.respond log (Call.get none t.Meta.NextPageUrl) = .ok body ∧
            (J.unmarshalList body (newIPMessageList client)).2 = some e)

/-- Following next links from `t` fetches the pages `pages`, in this order, and
the fetch after the last of them fails with `e`. -/
def NextChainFails (J : Json) : IPMessageList → List Call → List IPMessageList → GoError → Prop
  | t, log, [], e => FetchFails J t log e
  | t, log, p :: ps, e =>
    Fetched J t log p ∧ NextChainFails J p (log ++ [Call.get none t.Meta.NextPageUrl]) ps e

/-- A server that has the first page at `/p1` and fails every other call. -/
def failingClient : Client where
  addr := 3
  respond := fun _ call =>
    match call with
    | .get _ uri => if uri = "/p1" then .ok "page1" else .error (GoError.foreign "timeout")
    | .post _ _ => .error (GoError.foreign "timeout")

/-- A page in front of the example's first page. -/
def examplePage0 (client : Client) : IPMessageList :=
  { Client := some client, Messages := [exampleMessage "IM0" "z"],
    Meta := { NextPageUrl := "/p1", PreviousPageUrl := "", FirstPageUrl := "/p0" } }

/-! ## Lemmas on the form -/

theorem Values.lookup_Set_self (v : Values) (key value : String) :
    (v.Set key value).lookup key = some [value] := by
  simp [Values.Set, Values.lookup]

theorem Values.lookup_Set_other (v : Values) (key value other : String) (h : key ≠ other) :
    (v.Set key value).lookup other = v.lookup other := by
  have h1 : (key == other) = false := by simpa using h
  have h2 : ∀ w : Values,
      (w.filter (fun e => !(e.1 == key))).find? (fun e => e.1 == other)
        = w.find? (fun e => e.1 == other) := by
    intro w
    induction w with
    | nil => rfl
    | cons e w ih =>
      by_cases hk : e.1 = key
      · have ho : ¬ e.1 = other := fun ho => h (hk.symm.trans ho)
        rw [List.filter_cons_of_neg (by simpa using hk), List.find?_cons_of_neg _ (by simpa using ho)]
        exact ih
      · rw [List.filter_cons_of_pos (by simpa using hk)]
        by_cases ho : e.1 = other
        · rw [List.find?_cons_of_pos _ (by simpa using ho), List.find?_cons_of_pos _ (by simpa using ho)]
        · rw [List.find?_cons_of_neg _ (by simpa using ho), List.find?_cons_of_neg _ (by simpa using ho)]
          exact ih
  simp only [Values.Set, Values.lookup, List.find?_cons, h1, h2]

/-! ## Message operations -/

/-- C7: `SendIPMessageToChannel` issues exactly one call, a post to
`"/Services/" + serviceSid + "/Channels/" + channelSid + "/Messages"`, whose
form maps `Body` to the single value `body` and `Attributes` to the single
value `attributes` (empty or not), maps `From` to the single value `from`
exactly when `from` is not empty and has no `From` otherwise, and has no other key. -/
theorem SendIPMessageToChannel_posts_form (J : Json) (client : Client)
    (serviceSid channelSid sender body attributes : String) (log : List Call) :
    ∃ form : Values,
      (SendIPMessageToChannel J client serviceSid channelSid sender body attributes log).2
          = log ++ [Call.post form
              ("/Services/" ++ serviceSid ++ "/Channels/" ++ channelSid ++ "/Messages")]
        ∧ form.lookup "Body" = some [body]
        ∧ form.lookup "Attributes" = some [attributes]
        ∧ form.lookup "From" = (if sender = "" then none else some [sender])
        ∧ ((form.lookup "From").isSome ↔ sender ≠ "")
        ∧ ∀ key, key ≠ "Body" → key ≠ "From" → key ≠ "Attributes" → form.lookup key = none := by
  by_cases hs : sender = ""
  · refine ⟨Values.Set (Values.Set ([] : Values) "Body" body) "Attributes" attributes, ?_, ?_, ?_, ?_, ?_, ?_⟩
    · simp only [SendIPMessageToChannel, hs]
      cases client.respond log _ <;> simp
    · rw [Values.lookup_Set_other _ _ _ _ (by decide), Values.lookup_Set_self]
    · rw [Values.lookup_Set_self]
    · rw [Values.lookup_Set_other _ _ _ _ (by decide), Values.lookup_Set_other _ _ _ _ (by decide)]
      simp [hs, Values.lookup]
    · rw [Values.lookup_Set_other _ _ _ _ (by decide), Values.lookup_Set_other _ _ _ _ (by decide)]
      simp [hs, Values.lookup]
    · intro key h1 _ h3
      rw [Values.lookup_Set_other _ _ _ _ (Ne.symm h3), Values.lookup_Set_other _ _ _ _ (Ne.symm h1)]
      simp [Values.lookup]
  · refine ⟨Values.Set (Values.Set (Values.Set ([] : Values) "Body" body) "From" sender) "Attributes" attributes,
      ?_, ?_, ?_, ?_, ?_, ?_⟩
    · simp only [SendIPMessageToChannel, hs]
      cases client.respond log _ <;> simp [hs]
    · rw [Values.lookup_Set_other _ _ _ _ (by decide), Values.lookup_Set_other _ _ _ _ (by decide),
        Values.lookup_Set_self]
    · rw [Values.lookup_Set_self]
    · rw [Values.lookup_Set_other _ _ _ _ (by decide), Values.lookup_Set_self]
      simp [hs]
    · rw [Values.lookup_Set_other _ _ _ _ (by decide), Values.lookup_Set_self]
      simp [hs]
    · intro key h1 h2 h3
      rw [Values.lookup_Set_other _ _ _ _ (Ne.symm h3), Values.lookup_Set_other _ _ _ _ (Ne.symm h2),
        Values.lookup_Set_other _ _ _ _ (Ne.symm h1)]
      simp [Values.lookup]

/-- C8: when the client answers the one call of `SendIPMessageToChannel`,
`UpdateIPMessage`, `GetIPChannelMessage` or `ListIPMessages` (the post of the
form, or the get, at the operation's path) with an error `e`, the operation
returns `e` itself and a nil record, having made that call and no other.  The
result is the same for every decoder `J`: nothing is decoded. -/
theorem client_error_returned_unchanged (J : Json) (client : Client) (e : GoError)
    (log : List Call) :
    (∀ serviceSid channelSid sender body attributes,
        client.respond log
            (Call.post
              (Values.Set
                (if sender ≠ "" then Values.Set (Values.Set [] "Body" body) "From" sender
                  else Values.Set [] "Body" body)
                "Attributes" attributes)
              ("/Services/" ++ serviceSid ++ "/Channels/" ++ channelSid ++ "/Messages"))
          = .error e →
        SendIPMessageToChannel J client serviceSid channelSid sender body attributes log
          = ((none, some e),
              log ++ [Call.post
                (Values.Set
                  (if sender ≠ "" then Values.Set (Values.Set [] "Body" body) "From" sender
                    else Values.Set [] "Body" body)
                  "Attributes" attributes)
                ("/Services/" ++ serviceSid ++ "/Channels/" ++ channelSid ++ "/Messages")]))
    ∧ (∀ serviceSid channelSid messageSid body attributes,
        client.respond log
            (Call.post (Values.Set (Values.Set [] "Body" body) "Attributes" attributes)
              ("/Services/" ++ serviceSid ++ "/Channels/" ++ channelSid ++ "/Messages/"
                ++ messageSid))
          = .error e →
        UpdateIPMessage J client serviceSid channelSid messageSid body attributes log
          = ((none, some e),
              log ++ [Call.post (Values.Set (Values.Set [] "Body" body) "Attributes" attributes)
                ("/Services/" ++ serviceSid ++ "/Channels/" ++ channelSid ++ "/Messages/"
                  ++ messageSid)]))
    ∧ (∀ serviceSid channelSid sid,
        client.respond log
            (Call.get (some [])
              ("/Services/" ++ serviceSid ++ "/Channels/" ++ channelSid ++ "/Messages/" ++ sid))
          = .error e →
        GetIPChannelMessage J client serviceSid channelSid sid log
          = ((none, some e),
              log ++ [Call.get (some [])
                ("/Services/" ++ serviceSid ++ "/Channels/" ++ channelSid ++ "/Messages/"
                  ++ sid)]))
    ∧ (∀ serviceSid channelSid,
        client.respond log
            (Call.get none ("/Services/" ++ serviceSid ++ "/Channels/" ++ channelSid ++ "/Messages"))
          = .error e →
        ListIPMessages J client serviceSid channelSid log
          = ((none, some e),
              log ++ [Call.get none
                ("/Services/" ++ serviceSid ++ "/Channels/" ++ channelSid ++ "/Messages")])) := by
  refine ⟨?_, ?_, ?_, ?_⟩
  · intro serviceSid channelSid sender body attributes herr
    simp only [SendIPMessageToChannel]
    rw [herr]
  · intro serviceSid channelSid messageSid body attributes herr
    simp only [UpdateIPMessage]
    rw [herr]
  · intro serviceSid channelSid sid herr
    simp only [GetIPChannelMessage]
    rw [herr]
  · intro serviceSid channelSid herr
    simp only [ListIPMessages]
    rw [herr]

/-- C8 at a concrete input: the example server rejects every post with 401 and
has nothing at the message and listing paths of service `IS1`, channel `CH1`. -/
theorem client_error_returned_unchanged_witness :
    SendIPMessageToChannel exampleJson exampleClient "IS1" "CH1" "bob" "hi" "" []
        = ((none, some (GoError.foreign "401")),
            [Call.post [("Attributes", [""]), ("From", ["bob"]), ("Body", ["hi"])]
              "/Services/IS1/Channels/CH1/Messages"])
    ∧ UpdateIPMessage exampleJson exampleClient "IS1" "CH1" "IM1" "hi" "" []
        = ((none, some (GoError.foreign "401")),
            [Call.post [("Attributes", [""]), ("Body", ["hi"])]
              "/Services/IS1/Channels/CH1/Messages/IM1"])
    ∧ GetIPChannelMessage exampleJson exampleClient "IS1" "CH1" "IM1" []
        = ((none, some (GoError.foreign "404")),
            [Call.get (some []) "/Services/IS1/Channels/CH1/Messages/IM1"])
    ∧ ListIPMessages exampleJson exampleClient "IS1" "CH1" []
        = ((none, some (GoError.foreign "404")),
            [Call.get none "/Services/IS1/Channels/CH1/Messages"]) :=
  ⟨(client_error_returned_unchanged exampleJson exampleClient (GoError.foreign "401") []).1
      "IS1" "CH1" "bob" "hi" "" rfl,
   (client_error_returned_unchanged exampleJson exampleClient (GoError.foreign "401") []).2.1
      "IS1" "CH1" "IM1" "hi" "" rfl,
   (client_error_returned_unchanged exampleJson exampleClient (GoError.foreign "404") []).2.2.1
      "IS1" "CH1" "IM1" rfl,
   (client_error_returned_unchanged exampleJson exampleClient (GoError.foreign "404") []).2.2.2
      "IS1" "CH1" rfl⟩

/-! ## Single paging steps -/

theorem HasNextPage_eq_false_iff (c : IPMessageList) :
    HasNextPage c = false ↔ c.Meta.NextPageUrl = "" := by
  simp [HasNextPage]

theorem HasPreviousPage_eq_false_iff (c : IPMessageList) :
    HasPreviousPage c = false ↔ c.Meta.PreviousPageUrl = "" := by
  simp [HasPreviousPage]

theorem getPage_of_client (J : Json) (c : IPMessageList) (client : Client) (uri : String)
    (log : List Call) (hc : c.Client = some client) :
    getPage J c uri log =
      match client.respond log (Call.get none uri) with
      | .error err => .done (none, some err) (log ++ [Call.get none uri])
      | .ok body =>
        .done (some (J.unmarshalList body (newIPMessageList client)).1,
            (J.unmarshalList body (newIPMessageList client)).2) (log ++ [Call.get none uri]) := by
  simp only [getPage, hc]

theorem NextPage_of_link (J : Json) (c : IPMessageList) (log : List Call)
    (hn : c.Meta.NextPageUrl ≠ "") :
    NextPage J c log = getPage J c c.Meta.NextPageUrl log := by
  simp [NextPage, HasNextPage, hn]

/-- C3: a paging step whose link is empty fails locally.  `HasNextPage` is
false exactly when `Meta.NextPageUrl` is empty, and then `NextPage` returns no
page and the error "No next page" with the log of calls unchanged; likewise
`HasPreviousPage`, `Meta.PreviousPageUrl`, `PreviousPage` and "No previous page". -/
theorem paging_without_link_is_local (J : Json) (c : IPMessageList) (log : List Call) :
    ((HasNextPage c = false ↔ c.Meta.NextPageUrl = "")
      ∧ (HasNextPage c = false →
          NextPage J c log = .done (none, some (GoError.Error "No next page")) log))
    ∧ ((HasPreviousPage c = false ↔ c.Meta.PreviousPageUrl = "")
      ∧ (HasPreviousPage c = false →
          PreviousPage J c log = .done (none, some (GoError.Error "No previous page")) log)) := by
  refine ⟨⟨HasNextPage_eq_false_iff c, ?_⟩, ⟨HasPreviousPage_eq_false_iff c, ?_⟩⟩
  · intro h
    simp [NextPage, h]
  · intro h
    simp [PreviousPage, h]

/-- C3 at a concrete input: the example's last page has no next link, its first
page no previous link; with two calls already logged, neither step adds one. -/
theorem paging_without_link_is_local_witness :
    NextPage exampleJson examplePage3 [Call.get none "/p2", Call.get none "/p3"]
        = .done (none, some (GoError.Error "No next page"))
            [Call.get none "/p2", Call.get none "/p3"]
    ∧ PreviousPage exampleJson examplePage1 [Call.get none "/p2", Call.get none "/p3"]
        = .done (none, some (GoError.Error "No previous page"))
            [Call.get none "/p2", Call.get none "/p3"] :=
  ⟨(paging_without_link_is_local exampleJson examplePage3 _).1.2 (by decide),
   (paging_without_link_is_local exampleJson examplePage1 _).2.2 (by decide)⟩

/-- C4, evaluated on the code: on the example's middle page, whose previous
link is `/p1` and whose next link is `/p3`, `PreviousPage` sends its get to
`/p3` and returns the third page; on the last page, whose previous link is
`/p2` and whose next link is empty, it sends its get to the empty URL. -/
theorem PreviousPage_gets_NextPageUrl :
    examplePage2.Meta.PreviousPageUrl = "/p1"
    ∧ PreviousPage exampleJson examplePage2 []
        = .done (some examplePage3, none) [Call.get none "/p3"]
    ∧ examplePage3.Meta.PreviousPageUrl = "/p2"
    ∧ PreviousPage exampleJson examplePage3 []
        = .done (none, some (GoError.foreign "404")) [Call.get none ""] :=
  ⟨rfl, rfl, rfl, rfl⟩

/-- C5, as stated, at a page with a next link and a nil client: `NextPage`
stops at the method call on the nil client; it returns nothing and the get of
the next link is not made. -/
theorem NextPage_nil_client_makes_no_get :
    clientlessPageWithNext.Meta.NextPageUrl ≠ ""
    ∧ NextPage exampleJson clientlessPageWithNext [] = .nilDeref []
    ∧ ¬ ∃ r, NextPage exampleJson clientlessPageWithNext []
          = .done r ([] ++ [Call.get none clientlessPageWithNext.Meta.NextPageUrl]) := by
  refine ⟨by decide, rfl, ?_⟩
  rintro ⟨r, h⟩
  have h2 : (Run.nilDeref [] : Run (Option IPMessageList × Option GoError))
      = .done r [Call.get none "/p2"] := h
  cases h2

/-- C5, amended: on a collection with a non-nil client and a non-empty next link, `NextPage`
adds exactly one call to the log, the get of `c.Meta.NextPageUrl` with the nil
query; when the get answers with a body, the page returned is what the decoder
makes of that body from a freshly allocated list holding the client; and a
collection with the same client and next link, whatever its messages and other
links, gets the same result. -/
theorem NextPage_fetches_NextPageUrl (J : Json) (c : IPMessageList) (client : Client)
    (log : List Call) (hc : c.Client = some client) (hn : c.Meta.NextPageUrl ≠ "") :
    (∃ r, NextPage J c log = .done r (log ++ [Call.get none c.Meta.NextPageUrl]))
    ∧ (∀ body, client.respond log (Call.get none c.Meta.NextPageUrl) = .ok body →
        NextPage J c log
          = .done (some (J.unmarshalList body (newIPMessageList client)).1,
              (J.unmarshalList body (newIPMessageList client)).2)
            (log ++ [Call.get none c.Meta.NextPageUrl]))
    ∧ (∀ d : IPMessageList, d.Client = c.Client → d.Meta.NextPageUrl = c.Meta.NextPageUrl →
        NextPage J d log = NextPage J c log) := by
  rw [NextPage_of_link J c log hn, getPage_of_client J c client _ log hc]
  refine ⟨?_, ?_, ?_⟩
  · cases client.respond log (Call.get none c.Meta.NextPageUrl) <;> exact ⟨_, rfl⟩
  · intro body hb
    rw [hb]
  · intro d hd hl
    rw [NextPage_of_link J d log (hl ▸ hn), getPage_of_client J d client _ log (hd.trans hc), hl]

/-- C5 at a concrete input: from the example's first page, `NextPage` gets
`/p2` and returns the second page; a page with other messages and other
previous and first links, but the same client and next link, gives the same. -/
theorem NextPage_fetches_NextPageUrl_witness :
    NextPage exampleJson examplePage1 [] = .done (some examplePage2, none) [Call.get none "/p2"]
    ∧ NextPage exampleJson
        { Client := some exampleClient, Messages := [],
          Meta := { NextPageUrl := "/p2", PreviousPageUrl := "/x", FirstPageUrl := "/y" } } []
        = NextPage exampleJson examplePage1 [] :=
  ⟨(NextPage_fetches_NextPageUrl exampleJson examplePage1 exampleClient [] rfl (by decide)).2.1
      "page2" rfl,
   (NextPage_fetches_NextPageUrl exampleJson examplePage1 exampleClient [] rfl (by decide)).2.2
      _ rfl rfl⟩

/-- C10, as stated, at the page with a nil client that the code itself returns
for the body `{"Client":null}`: `FirstPage` stops at the method call on the nil
client; it returns nothing and the get of the first-page link is not made. -/
theorem FirstPage_nil_client_makes_no_get :
    FirstPage exampleJson clientlessPage [] = .nilDeref []
    ∧ ¬ ∃ r, FirstPage exampleJson clientlessPage []
          = .done r ([] ++ [Call.get none clientlessPage.Meta.FirstPageUrl]) := by
  refine ⟨rfl, ?_⟩
  rintro ⟨r, h⟩
  have h2 : (Run.nilDeref [] : Run (Option IPMessageList × Option GoError))
      = .done r [Call.get none ""] := h
  cases h2

/-- C10, amended: on a collection with a non-nil client, `FirstPage` checks nothing first: it
adds exactly one call to the log, the get of `c.Meta.FirstPageUrl` with the nil
query, whatever the three links are, and the error it returns is nil unless
that get answered with an error or its body did not decode. -/
theorem FirstPage_always_fetches (J : Json) (c : IPMessageList) (client : Client)
    (log : List Call) (hc : c.Client = some client) :
    ∃ r, FirstPage J c log = .done r (log ++ [Call.get none c.Meta.FirstPageUrl])
      ∧ (r.2 ≠ none ↔
          (∃ e, client.respond log (Call.get none c.Meta.FirstPageUrl) = .error e)
          ∨ ∃ body, client.respond log (Call.get none c.Meta.FirstPageUrl) = .ok body
              ∧ (J.unmarshalList body (newIPMessageList client)).2 ≠ none)
      ∧ (∀ e, client.respond log (Call.get none c.Meta.FirstPageUrl) = .error e →
          r = (none, some e))
      ∧ (∀ body, client.respond log (Call.get none c.Meta.FirstPageUrl) = .ok body →
          r = (some (J.unmarshalList body (newIPMessageList client)).1,
                (J.unmarshalList body (newIPMessageList client)).2)) := by
  rw [FirstPage, getPage_of_client J c client _ log hc]
  cases h : client.respond log (Call.get none c.Meta.FirstPageUrl) with
  | error e => exact ⟨_, rfl, by simp, by simp, by simp⟩
  | ok body => exact ⟨_, rfl, by simp, by simp, by simp⟩

/-- C10 at a concrete input: a collection all of whose links are empty; the
get goes to the empty URL, where the example server has nothing. -/
theorem FirstPage_always_fetches_witness :
    ∃ r, FirstPage exampleJson (newIPMessageList exampleClient) []
          = .done r [Call.get none ""]
      ∧ r = (none, some (GoError.foreign "404")) :=
  (FirstPage_always_fetches exampleJson (newIPMessageList exampleClient) exampleClient [] rfl).imp
    fun _ h => ⟨h.1, h.2.2.1 _ rfl⟩

/-! ## The client field across a paging step -/

theorem getPage_Client_of_frame (J : Json) (c : IPMessageList) (uri : String) (log log1 : List Call)
    (p : IPMessageList) (e : Option GoError)
    (hframe : ∀ body v, (J.unmarshalList body v).1.Client = v.Client)
    (h : getPage J c uri log = .done (some p, e) log1) : p.Client = c.Client := by
  unfold getPage at h
  cases hc : c.Client with
  | none => simp [hc] at h
  | some client =>
    simp only [hc] at h
    cases hr : client.respond log (Call.get none uri) with
    | error err => simp [hr] at h
    | ok body =>
      simp only [hr] at h
      injection h with h1 _
      injection h1 with h2 _
      injection h2 with h3
      rw [← h3, hframe]
      rfl

/-- C6, evaluated on the code: when the server's answer is the body
`{"Client":null}`, which decodes without an error, the page that `NextPage`,
`PreviousPage` and `FirstPage` return, and the list that `ListIPMessages`
returns, have a nil client, not the client of the page they came from or the
client passed in; a further `FirstPage` on such a page calls a method of the
nil client and makes no get. -/
theorem client_lost_on_null_member :
    nullClientStart.Client = some nullClientServer
    ∧ NextPage nullClientJson nullClientStart []
        = .done (some clientlessPage, none) [Call.get none "/p2"]
    ∧ PreviousPage nullClientJson nullClientStart []
        = .done (some clientlessPage, none) [Call.get none "/p2"]
    ∧ FirstPage nullClientJson nullClientStart []
        = .done (some clientlessPage, none) [Call.get none "/p0"]
    ∧ ListIPMessages nullClientJson nullClientServer "IS1" "CH1" []
        = ((some clientlessPage, none), [Call.get none "/Services/IS1/Channels/CH1/Messages"])
    ∧ clientlessPage.Client = none
    ∧ FirstPage nullClientJson clientlessPage [Call.get none "/p2"]
        = .nilDeref [Call.get none "/p2"] :=
  ⟨rfl, rfl, rfl, rfl, rfl, rfl, rfl⟩

/-! ## Draining the pages -/

theorem NextPage_of_Fetched (J : Json) (t p : IPMessageList) (log : List Call)
    (h : Fetched J t log p) :
    NextPage J t log = .done (some p, none) (log ++ [Call.get none t.Meta.NextPageUrl]) := by
  obtain ⟨hn, client, body, hc, hr, hd⟩ := h
  rw [NextPage_of_link J t log hn, getPage_of_client J t client _ log hc, hr]
  simp only [hd]

theorem NextPage_of_FetchFails (J : Json) (t : IPMessageList) (log : List Call) (e : GoError)
    (h : FetchFails J t log e) :
    ∃ q, NextPage J t log = .done (q, some e) (log ++ [Call.get none t.Meta.NextPageUrl]) := by
  obtain ⟨hn, client, hc, hr⟩ := h
  rw [NextPage_of_link J t log hn, getPage_of_client J t client _ log hc]
  rcases hr with hr | ⟨body, hr, hd⟩
  · rw [hr]
    exact ⟨_, rfl⟩
  · rw [hr]
    simp only [hd]
    exact ⟨_, rfl⟩

theorem HasNextPage_of_link (t : IPMessageList) (hn : t.Meta.NextPageUrl ≠ "") :
    HasNextPage t = true := by
  simp [HasNextPage, hn]

theorem GetAllMessagesLoop_of_NextChainFails (J : Json) (pages : List IPMessageList) (e : GoError) :
    ∀ (t : IPMessageList) (messages : List IPMessage) (log : List Call) (fuel : Nat),
      NextChainFails J t log pages e → pages.length < fuel →
      GetAllMessagesLoop J fuel t messages log
        = some (.done ([], some e)
            (log ++ (t :: pages).map fun q => Call.get none q.Meta.NextPageUrl)) := by
  induction pages with
  | nil =>
    intro t messages log fuel h hfuel
    cases fuel with
    | zero => simp at hfuel
    | succ fuel =>
      obtain ⟨q, hq⟩ := NextPage_of_FetchFails J t log e h
      rw [GetAllMessagesLoop, HasNextPage_of_link t h.1, if_pos rfl, hq]
      simp
  | cons p ps ih =>
    intro t messages log fuel h hfuel
    obtain ⟨hf, hrest⟩ := h
    cases fuel with
    | zero => simp at hfuel
    | succ fuel =>
      have hlt : ps.length < fuel := by simpa using hfuel
      rw [GetAllMessagesLoop, HasNextPage_of_link t hf.1, if_pos rfl, NextPage_of_Fetched J t p log hf]
      simp only
      rw [ih p _ _ fuel hrest hlt]
      simp [List.append_assoc]

/-- C2: if following next links from `c` fetches `k` pages and the fetch after
them fails with `e` (the client's get answers with the error `e`, or the body
it answers with does not decode and the decoder reports `e`), then
`GetAllMessages`, given room for that many fetches, returns the error `e` and
no messages, however many pages were fetched before. -/
theorem GetAllMessages_all_or_nothing (J : Json) (c : IPMessageList) (log : List Call)
    (pages : List IPMessageList) (e : GoError) (fuel : Nat)
    (h : NextChainFails J c log pages e) (hfuel : pages.length < fuel) :
    GetAllMessages J fuel c log
      = some (.done ([], some e)
          (log ++ (c :: pages).map fun q => Call.get none q.Meta.NextPageUrl)) :=
  GetAllMessagesLoop_of_NextChainFails J pages e c c.Messages log fuel h hfuel

/-- C2 at concrete inputs: the fetch of the second page times out after the
first page was fetched; and the very first fetch returns a body that does not
decode.  Both runs return the error and no message. -/
theorem GetAllMessages_all_or_nothing_witness :
    GetAllMessages exampleJson 5 (examplePage0 failingClient) []
        = some (.done ([], some (GoError.foreign "timeout"))
            [Call.get none "/p1", Call.get none "/p2"])
    ∧ GetAllMessages exampleJson 1
        { Client := some exampleClient, Messages := [exampleMessage "IM9" "x"],
          Meta := { NextPageUrl := "/bad", PreviousPageUrl := "", FirstPageUrl := "" } } []
        = some (.done ([], some (GoError.foreign "invalid character")) [Call.get none "/bad"]) :=
  ⟨GetAllMessages_all_or_nothing exampleJson (examplePage0 failingClient) []
      [(exampleJson.unmarshalList "page1" (newIPMessageList failingClient)).1]
      (GoError.foreign "timeout") 5
      ⟨⟨by decide, failingClient, "page1", rfl, rfl, rfl⟩,
        by decide, failingClient, rfl, Or.inl rfl⟩
      (by decide),
   GetAllMessages_all_or_nothing exampleJson _ [] [] (GoError.foreign "invalid character") 1
      ⟨by decide, exampleClient, rfl, Or.inr ⟨"garbage", rfl, rfl⟩⟩
      (by decide)⟩

end Twiliogo
